import Mathlib

/-!
Verification of the instant.bible UI fragments: the React search-bar header
(`packages/web/src/app/header.tsx`) and the Android `VerseResultAdapter`
(`bible.instant.ui.main`) that renders verse search results.  The relevant
event handlers and adapter methods are shallowly embedded as pure Lean
functions; view mutation becomes explicit state passing on view records,
and the fallible accesses of the Kotlin code (list indexing, `as Button`
casts) return `Option`.
-/

namespace InstantBible

/-! ## Redux actions of the web header

`doSearch` and `doReset` are opaque action creators from `../state/search`;
only their identity and payload matter to the header. -/

inductive Action where
  | doSearch (query : String)
  | doReset
deriving DecidableEq, Repr

/-- A document `keyup` event as the header's handlers observe it: the `key`
string and whether `e.target` is the search input element
(`e.target !== inputRef.current` is the only use of the target). -/
structure KeyboardEvent where
  key : String
  targetIsInput : Bool
deriving DecidableEq, Repr

/-- The observable effects of the slash-key handler: whether it called
`e.preventDefault()` and whether it called `inputRef.current.focus()`. -/
structure SlashEffect where
  preventDefault : Bool
  focusInput : Bool
deriving DecidableEq, Repr

/-- Embedding of the first `useEffect` keyup handler of the header:

```
if (!inputRef.current) { return; }
if (e.target !== inputRef.current && e.key === '/') {
  e.preventDefault();
  inputRef.current.focus();
}
```

`inputMounted` models `inputRef.current` being non-null. -/
def slashKeyupHandler (inputMounted : Bool) (e : KeyboardEvent) : SlashEffect :=
  if !inputMounted then
    { preventDefault := false, focusInput := false }
  else if !e.targetIsInput && e.key == "/" then
    { preventDefault := true, focusInput := true }
  else
    { preventDefault := false, focusInput := false }

/-- Embedding of the second `useEffect` keyup handler of the header:

```
if (e.key === 'Escape') { dispatch(doReset()); }
```

The result is the list of actions dispatched for the event. -/
def escapeKeyupHandler (e : KeyboardEvent) : List Action :=
  if e.key == "Escape" then [Action.doReset] else []

/-- A React form event, reduced to the one field the header reads:
`e.currentTarget.value`. -/
structure FormEvent where
  currentTargetValue : String
deriving DecidableEq, Repr

/-- Embedding of the header's `handleChange` callback: it dispatches
`doSearch(e.currentTarget.value)`. -/
def handleChange (e : FormEvent) : Action :=
  Action.doSearch e.currentTargetValue

/-- The props the header passes to its `Input` element, as rendered from the
current query: `value={query}`, `onChange={handleChange}`, the localised
"Search..." placeholder, and `autoFocus={true}`. -/
structure RenderedInput where
  value : String
  placeholder : String
  autoFocus : Bool
  onChange : FormEvent → Action

/-- Embedding of the header render: given the localised placeholder and the
query read from the search state (`useQuery`), produce the input props. -/
def renderHeaderInput (searchPlaceholder : String) (query : String) : RenderedInput :=
  { value := query
  , placeholder := searchPlaceholder
  , autoFocus := true
  , onChange := handleChange }

/-! ## Android adapter: data model

`Service.Response.VerseResult` and `Data` are protobuf-generated
collaborators; only the fields the adapter reads are embedded.  Machine
integers of the protobuf (chapter, verse, translation indices) are `Nat`;
the ARGB colour resolved by `ContextCompat.getColor` is an `Int` (it is
string-interpolated with Kotlin `Int.toString`, decimal with a leading
minus for negative values, which matches Lean's `toString` on `Int`). -/

structure VerseKey where
  book : Nat
  chapter : Nat
  verse : Nat
deriving DecidableEq, Repr

/-- The fields of `Service.Response.VerseResult` the adapter reads:
`key`, `topTranslationValue`, `highlightsList`, and the repeated `text`
field accessed through `getText(idx)`. -/
structure VerseResult where
  key : VerseKey
  topTranslationValue : Nat
  highlightsList : List String
  textList : List String
deriving DecidableEq, Repr

/-- `item.getText(idx)`: element `idx` of the repeated protobuf `text`
field (out-of-range reads do not occur in the adapter's uses; they are
given the protobuf default `""`). -/
def VerseResult.getText (item : VerseResult) (idx : Nat) : String :=
  item.textList.getD idx ""

/-- The one piece of `android.content.Context` the adapter uses: the
resolved value of the colour resource `R.color.ibTextHighlight`. -/
structure Context where
  ibTextHighlight : Int
deriving DecidableEq, Repr

/-- Model of `android.text.Spanned` values produced by
`HtmlCompat.fromHtml`: the HTML parse itself is external library code, so
a `Spanned` is kept symbolic as the source HTML string paired with the
flags it was parsed with.  Two `Spanned` values are equal exactly when the
same HTML was parsed with the same flags. -/
inductive Spanned where
  | fromHtml (html : String) (flags : Nat) : Spanned
deriving DecidableEq, Repr

/-- `HtmlCompat.FROM_HTML_MODE_LEGACY` (its numeric value, 0). -/
def FROM_HTML_MODE_LEGACY : Nat := 0

namespace HtmlCompat

/-- `HtmlCompat.fromHtml(html, flags)`. -/
def fromHtml (html : String) (flags : Nat) : Spanned :=
  Spanned.fromHtml html flags

end HtmlCompat

/-! ## Case-insensitive regex replacement

`getHighlightedText` runs
`word.toRegex(RegexOption.IGNORE_CASE).replace(text) { ... }` for each
highlight word.  The Kotlin regex engine is external library code; it is
embedded here for the pattern words the search service produces (plain
words without regex metacharacters), for which `Regex.replace` is exactly
left-to-right, non-overlapping, case-insensitive literal replacement, the
replacement callback receiving the matched text `it.value` with its
original casing.  The degenerate empty pattern is left unreplaced. -/

/-- Case-insensitive match of the pattern `pat` against the front of `s`:
on success, the matched front of `s` (original casing) and the rest. -/
def stripCI : List Char → List Char → Option (List Char × List Char)
  | [], s => some ([], s)
  | _ :: _, [] => none
  | p :: ps, c :: cs =>
    if p.toLower = c.toLower then
      match stripCI ps cs with
      | some (m, rest) => some (c :: m, rest)
      | none => none
    else none

/-- Worker for `replaceCI`; `fuel` bounds the number of scanning steps and
is initialised to the text length (each step consumes at least one
character of a nonempty pattern's match, or moves past one character). -/
def replaceCIGo (pat : List Char) (wrap : String → String) :
    Nat → List Char → List Char
  | _, [] => []
  | 0, s => s
  | Nat.succ fuel, c :: cs =>
    match stripCI pat (c :: cs) with
    | some (m, rest) => (wrap m.asString).toList ++ replaceCIGo pat wrap fuel rest
    | none => c :: replaceCIGo pat wrap fuel cs

/-- `word.toRegex(RegexOption.IGNORE_CASE).replace(text) { wrap(it.value) }`
for a metacharacter-free `word`: every case-insensitive occurrence of
`word` in `text`, scanned left to right without overlap, is replaced by
`wrap` applied to the matched substring; replacements are not rescanned. -/
def replaceCI (word : String) (wrap : String → String) (text : String) : String :=
  if word.isEmpty then text
  else (replaceCIGo word.toList wrap text.toList.length text.toList).asString

/-- The replacement string built by the adapter's highlight callback:
`"<b><font color='${color}' >${it.value}</font></b>"` with
`color = ContextCompat.getColor(context, R.color.ibTextHighlight)`. -/
def highlightSpan (context : Context) (matched : String) : String :=
  "<b><font color='" ++ toString context.ibTextHighlight ++ "' >"
    ++ matched ++ "</font></b>"

/-- Embedding of `VerseResultAdapter.getHighlightedText`:

```
HtmlCompat.fromHtml(
  item.highlightsList.fold(item.getText(idx), { text, word ->
    word.toRegex(RegexOption.IGNORE_CASE).replace(text) {
      "<b><font color='...' >${it.value}</font></b>" } }),
  HtmlCompat.FROM_HTML_MODE_LEGACY)
```

`idx` defaults to `item.topTranslationValue` as in the Kotlin signature. -/
def getHighlightedText (context : Context) (item : VerseResult)
    (idx : Nat := item.topTranslationValue) : Spanned :=
  HtmlCompat.fromHtml
    (item.highlightsList.foldl
      (fun text word => replaceCI word (highlightSpan context) text)
      (item.getText idx))
    FROM_HTML_MODE_LEGACY

/-! ## Android views

Style resource identifiers `R.style.ibButton` and `R.style.ibButtonBold`
are opaque distinct integers; their concrete values are irrelevant,
distinctness is what the styling logic observes. -/

def ibButton : Nat := 0

def ibButtonBold : Nat := 1

/-- The state of one `Button` in the translations `LinearLayout` that the
adapter reads or writes: its label (`btn.text`), the style set through
`setButtonStyle` (`setTextAppearance`), and the value stored under the
`R.string.translation_tag` tag key by `btn.setTag`. -/
structure ButtonView where
  text : String
  style : Nat
  translationTag : Option Nat
deriving DecidableEq, Repr

/-- A child of the translations `LinearLayout` as `getChildAt` returns it:
either a `Button` or some other `View`, in which case the adapter's
`as Button` cast throws. -/
inductive ChildView where
  | button (b : ButtonView) : ChildView
  | otherView : ChildView
deriving DecidableEq, Repr

/-- Whether a child is a `Button` (so `as Button` succeeds on it). -/
def ChildView.isButton : ChildView → Bool
  | .button _ => true
  | .otherView => false

/-- The `getChildAt(t) as Button` casts performed by the loops over
`0 until childCount`: all children as `Button`s, or `none` as soon as one
child is not a `Button` (the thrown `ClassCastException`). -/
def castChildren : List ChildView → Option (List ButtonView)
  | [] => some []
  | .button b :: cs =>
    match castChildren cs with
    | some bs => some (b :: bs)
    | none => none
  | .otherView :: _ => none

/-- The view state of a `VerseResultViewHolder`: the `verse_title` and
`verse_text` `TextView`s and the children of the `translations`
`LinearLayout`.  `context` is the `Context` of the holder's views
(`holder.verseText.context`). -/
structure VerseResultViewHolder where
  context : Context
  verseTitle : String
  verseText : Spanned
  translationsChildren : List ChildView
deriving DecidableEq, Repr

/-- The styles of the holder's translation buttons, when all children are
buttons. -/
def buttonStyles (holder : VerseResultViewHolder) : Option (List Nat) :=
  (castChildren holder.translationsChildren).map (List.map ButtonView.style)

/-! ## The adapter -/

/-- `VerseResultAdapter` state: the `data` list plus the log of framework
notifications issued so far, so that the `data` setter's
`notifyDataSetChanged()` call is observable. -/
structure VerseResultAdapter where
  data : List VerseResult
  notifiedDataSetChanged : Nat
deriving DecidableEq, Repr

/-- The custom `data` setter: store the value, then `notifyDataSetChanged()`. -/
def VerseResultAdapter.setData (a : VerseResultAdapter)
    (value : List VerseResult) : VerseResultAdapter :=
  { data := value, notifiedDataSetChanged := a.notifiedDataSetChanged + 1 }

/-- `override fun getItemCount() = data.size`. -/
def VerseResultAdapter.getItemCount (a : VerseResultAdapter) : Nat :=
  a.data.length

/-- `setButtonStyle(btn, style)` (both `SDK_INT` branches set the text
appearance of the button to `style`). -/
def setButtonStyle (btn : ButtonView) (style : Nat) : ButtonView :=
  { btn with style := style }

/-- The loop `for (t in 0 until childCount) setButtonStyle(child t, f t)`:
restyle each button by its index, the counter starting at `t`. -/
def styleButtons (f : Nat → Nat) : Nat → List ButtonView → List ButtonView
  | _, [] => []
  | t, b :: bs => setButtonStyle b (f t) :: styleButtons f (t + 1) bs

/-- Update the element at index `t` (no change when `t` is out of range,
matching that no listener exists for such an index). -/
def modifyAt (f : ButtonView → ButtonView) : Nat → List ButtonView → List ButtonView
  | _, [] => []
  | 0, b :: bs => f b :: bs
  | Nat.succ t, b :: bs => b :: modifyAt f t bs

/-- Embedding of `onBindViewHolder(holder, position)`.  The Kotlin body
can throw in two places — `data[position]` when `position` is out of
range, and `getChildAt(t) as Button` when a child of the translations
holder is not a `Button` — so the embedding returns `none` there.  On
success the holder's title, text and button styles are updated; the click
listeners installed by the second loop are modelled by
`translationClick` below. -/
def onBindViewHolder (getBookName : Nat → String)
    (adapter : VerseResultAdapter) (holder : VerseResultViewHolder)
    (position : Nat) : Option VerseResultViewHolder :=
  match adapter.data[position]? with
  | none => none
  | some item =>
    match castChildren holder.translationsChildren with
    | none => none
    | some btns =>
      some { holder with
        verseTitle := getBookName item.key.book ++ " "
          ++ toString item.key.chapter ++ ":" ++ toString item.key.verse
      , verseText := getHighlightedText holder.context item
      , translationsChildren :=
          (styleButtons
            (fun t => if t = item.topTranslationValue then ibButtonBold else ibButton)
            0 btns).map ChildView.button }

/-- Embedding of the click listener that `onBindViewHolder` installs on the
translation button at index `t` for the bound `item`:

```
holder.verseText.text = getHighlightedText(holder.verseText.context, item, t)
for (t in 0 until holder.translationsHolder.childCount) {
  setButtonStyle(holder.translationsHolder.getChildAt(t) as Button, R.style.ibButton)
}
setButtonStyle(btn, R.style.ibButtonBold)
```

The inner loop again casts every child with `as Button` (`none` on
failure); `btn` is the captured child at index `t`, so the final styles
are plain everywhere and bold at `t`. -/
def translationClick (item : VerseResult) (t : Nat)
    (holder : VerseResultViewHolder) : Option VerseResultViewHolder :=
  match castChildren holder.translationsChildren with
  | none => none
  | some btns =>
    let plain := btns.map fun b => setButtonStyle b ibButton
    let restyled := modifyAt (fun b => setButtonStyle b ibButtonBold) t plain
    some { holder with
      verseText := getHighlightedText holder.context item t
    , translationsChildren := restyled.map ChildView.button }

/-- Embedding of `onCreateViewHolder`: inflate `verse_result_view` and add
`Data.Translation.TOTAL_VALUE` buttons to its `translations` holder,
button `t` labelled `getTranslationLabel(t)`, styled `ibButton` and tagged
with `t`.  `TOTAL_VALUE` and `getTranslationLabel` are collaborators from
the generated protobuf and the app module, so they are parameters.

Modelled from the spec: the inflated layout `R.layout.verse_result_view`
is not among the sources; per the spec's fixed-size translations row, its
`translations` container starts with no children, so the buttons added by
the loop are its only children. -/
def onCreateViewHolder (TOTAL_VALUE : Nat) (getTranslationLabel : Nat → String)
    (context : Context) : VerseResultViewHolder :=
  { context := context
  , verseTitle := ""
  , verseText := HtmlCompat.fromHtml "" FROM_HTML_MODE_LEGACY
  , translationsChildren :=
      (List.range TOTAL_VALUE).map fun t =>
        ChildView.button
          { text := getTranslationLabel t
          , style := ibButton
          , translationTag := some t } }

/-! ## Helper lemmas -/

theorem castChildren_map_button (bs : List ButtonView) :
    castChildren (bs.map ChildView.button) = some bs := by
  induction bs with
  | nil => rfl
  | cons b bs ih => simp [castChildren, ih]

theorem castChildren_isSome_eq_all (cs : List ChildView) :
    (castChildren cs).isSome = cs.all ChildView.isButton := by
  induction cs with
  | nil => rfl
  | cons c cs ih =>
    cases c with
    | button b =>
      simp only [castChildren, List.all_cons, ChildView.isButton, Bool.true_and, ← ih]
      cases castChildren cs <;> rfl
    | otherView => simp [castChildren, ChildView.isButton]

theorem styleButtons_length (f : Nat → Nat) (n : Nat) (bs : List ButtonView) :
    (styleButtons f n bs).length = bs.length := by
  induction bs generalizing n with
  | nil => rfl
  | cons b bs ih => simp [styleButtons, ih]

theorem styleButtons_getElem (f : Nat → Nat) (n : Nat) (bs : List ButtonView) (i : Nat) :
    (styleButtons f n bs)[i]? = (bs[i]?).map fun b => setButtonStyle b (f (n + i)) := by
  induction bs generalizing n i with
  | nil => simp [styleButtons]
  | cons b bs ih =>
    cases i with
    | zero => simp [styleButtons]
    | succ i =>
      have hn : n + 1 + i = n + (i + 1) := by omega
      simp [styleButtons, ih, hn]

theorem modifyAt_length (f : ButtonView → ButtonView) (t : Nat) (bs : List ButtonView) :
    (modifyAt f t bs).length = bs.length := by
  induction bs generalizing t with
  | nil => simp [modifyAt]
  | cons b bs ih =>
    cases t with
    | zero => rfl
    | succ t => simp [modifyAt, ih]

theorem modifyAt_getElem (f : ButtonView → ButtonView) (t i : Nat) (bs : List ButtonView) :
    (modifyAt f t bs)[i]? = if i = t then (bs[i]?).map f else bs[i]? := by
  induction bs generalizing t i with
  | nil => simp [modifyAt]
  | cons b bs ih =>
    cases t with
    | zero =>
      cases i with
      | zero => simp [modifyAt]
      | succ i => simp [modifyAt, Nat.succ_ne_zero]
    | succ t =>
      cases i with
      | zero => simp [modifyAt, (Nat.succ_ne_zero t).symm]
      | succ i => simp [modifyAt, ih, Nat.succ_inj]

/-! ## Sample fixtures

Concrete values used by the closed witness theorems. -/

def sampleContext : Context :=
  { ibTextHighlight := -16711681 }

def sampleItem : VerseResult :=
  { key := { book := 42, chapter := 3, verse := 16 }
  , topTranslationValue := 0
  , highlightsList := ["god", "world"]
  , textList := ["For God so loved the world", "God loved the world so much"] }

def sampleHolder : VerseResultViewHolder :=
  { context := sampleContext
  , verseTitle := ""
  , verseText := HtmlCompat.fromHtml "" FROM_HTML_MODE_LEGACY
  , translationsChildren :=
      [ ChildView.button { text := "KJV", style := ibButton, translationTag := some 0 }
      , ChildView.button { text := "NET", style := ibButton, translationTag := some 1 } ] }

def sampleButtons : List ButtonView :=
  [ { text := "KJV", style := ibButton, translationTag := some 0 }
  , { text := "NET", style := ibButton, translationTag := some 1 } ]

def sampleAdapter : VerseResultAdapter :=
  { data := [sampleItem], notifiedDataSetChanged := 0 }

def sampleBookName : Nat → String := fun _ => "John"

/-! ## Claims about the web header -/

/-- C3 counterexample: a keyup event on the document whose key is `/` but
whose target is the search input itself is ignored by the handler — the
input is not focused and `preventDefault` is not called — refuting the
claim that every `/` keyup focuses the input and is default-prevented. -/
theorem slash_keyup_on_input_is_ignored :
    (slashKeyupHandler true { key := "/", targetIsInput := true }).focusInput = false
      ∧ (slashKeyupHandler true { key := "/", targetIsInput := true }).preventDefault = false := by
  exact ⟨rfl, rfl⟩

/-- C3 (amended): a document keyup with key `/` makes the handler call
`preventDefault` and focus the search input exactly when the input ref is
mounted and the event target is not the input itself; in every other case
(target is the input, ref unmounted, or a different key) it does nothing. -/
theorem slash_keyup_focuses_input (inputMounted targetIsInput : Bool) (key : String) :
    slashKeyupHandler inputMounted { key := key, targetIsInput := targetIsInput }
      = if inputMounted && !targetIsInput && (key == "/") then
          { preventDefault := true, focusInput := true }
        else
          { preventDefault := false, focusInput := false } := by
  cases inputMounted <;> cases targetIsInput <;> simp [slashKeyupHandler]

/-- C4: for every keyup event on the document whose key is `Escape`,
regardless of whether the event target is the search input or any other
element, the handler dispatches exactly the `doReset` action. -/
theorem escape_keyup_dispatches_doReset (targetIsInput : Bool) :
    escapeKeyupHandler { key := "Escape", targetIsInput := targetIsInput }
      = [Action.doReset] := by
  rfl

/-- C7: the search input is a controlled view of the query — the rendered
input's `value` equals the query read from the search state, and its
`onChange` handler maps a change event carrying value `v` to the action
`doSearch v`, forwarding every DOM edit unchanged to the dispatch. -/
theorem search_input_is_controlled (searchPlaceholder query v : String) :
    (renderHeaderInput searchPlaceholder query).value = query
      ∧ (renderHeaderInput searchPlaceholder query).onChange { currentTargetValue := v }
          = Action.doSearch v := by
  exact ⟨rfl, rfl⟩

/-! ## Claims about the adapter -/

/-- C5: assigning `value` to the adapter's `data` property makes
`getItemCount` report exactly `value.length`, stores exactly the given
list, and issues one `notifyDataSetChanged` to the framework. -/
theorem setData_binds_given_list (a : VerseResultAdapter) (value : List VerseResult) :
    (a.setData value).getItemCount = value.length
      ∧ (a.setData value).data = value
      ∧ (a.setData value).notifiedDataSetChanged = a.notifiedDataSetChanged + 1 := by
  exact ⟨rfl, rfl, rfl⟩

theorem ibButton_ne_ibButtonBold : ibButton ≠ ibButtonBold := by
  decide

/-- The style at index `i` after a click on button `t`: every entry of the
plain-styled list, except index `t` which is bold. -/
theorem click_styles_getElem (t i : Nat) (btns : List ButtonView) :
    ((modifyAt (fun b => setButtonStyle b ibButtonBold) t
        (btns.map fun b => setButtonStyle b ibButton)).map ButtonView.style)[i]?
      = (btns[i]?).map fun _ => if i = t then ibButtonBold else ibButton := by
  simp only [List.getElem?_map, modifyAt_getElem]
  by_cases h : i = t <;> cases hb : btns[i]? <;> simp [h, setButtonStyle]

/-- C1: for every verse result and translation index `idx`, the text the
adapter displays for that result at translation `idx` is
`HtmlCompat.fromHtml` (legacy mode) of the fold, over the result's
highlight words in order, of case-insensitive replacement of each word's
matches by the matched text wrapped in a bold coloured font tag, starting
from the raw translation text `item.getText(idx)`. -/
theorem displayed_text_is_regex_highlight_fold (item : VerseResult) (idx : Nat)
    (holder : VerseResultViewHolder) (btns : List ButtonView)
    (hbtns : castChildren holder.translationsChildren = some btns) :
    ∃ after, translationClick item idx holder = some after ∧
      after.verseText = HtmlCompat.fromHtml
        (item.highlightsList.foldl
          (fun text word =>
            replaceCI word
              (fun matched =>
                "<b><font color='" ++ toString holder.context.ibTextHighlight
                  ++ "' >" ++ matched ++ "</font></b>")
              text)
          (item.getText idx))
        FROM_HTML_MODE_LEGACY := by
  unfold translationClick
  rw [hbtns]
  exact ⟨_, rfl, rfl⟩

/-- C2: on a bound verse result, clicking the translation button at index
`t` sets the verse text view to the highlighted text computed for
translation `t` of that result. -/
theorem click_rerenders_highlighted_translation (item : VerseResult) (t : Nat)
    (holder : VerseResultViewHolder) (btns : List ButtonView)
    (hbtns : castChildren holder.translationsChildren = some btns)
    (_ht : t < btns.length) :
    ∃ after, translationClick item t holder = some after ∧
      after.verseText = getHighlightedText holder.context item t := by
  unfold translationClick
  rw [hbtns]
  exact ⟨_, rfl, rfl⟩

/-- C6: binding a verse result renders the verse text with the highlighted
text of the result's top translation (the `idx` default), styles the
button whose index equals `topTranslationValue` bold, and styles every
other translation button plain. -/
theorem bind_renders_top_translation (getBookName : Nat → String)
    (adapter : VerseResultAdapter) (holder : VerseResultViewHolder)
    (position : Nat) (item : VerseResult) (btns : List ButtonView)
    (hitem : adapter.data[position]? = some item)
    (hbtns : castChildren holder.translationsChildren = some btns) :
    ∃ bound, onBindViewHolder getBookName adapter holder position = some bound ∧
      bound.verseText = getHighlightedText holder.context item item.topTranslationValue ∧
      ∃ S, buttonStyles bound = some S ∧ S.length = btns.length ∧
        ∀ t, S[t]? = (btns[t]?).map
          fun _ => if t = item.topTranslationValue then ibButtonBold else ibButton := by
  unfold onBindViewHolder
  rw [hitem, hbtns]
  refine ⟨_, rfl, rfl,
    (styleButtons
      (fun t => if t = item.topTranslationValue then ibButtonBold else ibButton)
      0 btns).map ButtonView.style, ?_, ?_, ?_⟩
  · unfold buttonStyles
    rw [castChildren_map_button]
    rfl
  · simp [styleButtons_length]
  · intro t
    rw [List.getElem?_map, styleButtons_getElem]
    cases btns[t]? <;> simp [setButtonStyle]

/-- C8: `onBindViewHolder` completes without reaching an out-of-bounds or
failed-cast branch exactly when `position` is in range for the data list
and every child of the translations holder is a `Button`; the code checks
neither precondition and has no error path. -/
theorem bind_safe_iff_preconditions (getBookName : Nat → String)
    (adapter : VerseResultAdapter) (holder : VerseResultViewHolder) (position : Nat) :
    (onBindViewHolder getBookName adapter holder position).isSome = true ↔
      position < adapter.data.length
        ∧ holder.translationsChildren.all ChildView.isButton = true := by
  unfold onBindViewHolder
  cases hd : adapter.data[position]? with
  | none =>
    have hp : ¬ position < adapter.data.length := by
      intro h
      rw [List.getElem?_eq_getElem h] at hd
      cases hd
    simp [hp]
  | some item =>
    have hp : position < adapter.data.length := by
      by_contra h
      rw [List.getElem?_eq_none (Nat.le_of_not_lt h)] at hd
      cases hd
    cases hc : castChildren holder.translationsChildren with
    | none =>
      have hall : holder.translationsChildren.all ChildView.isButton = false := by
        have h := castChildren_isSome_eq_all holder.translationsChildren
        rw [hc] at h
        exact h.symm
      simp [hp, hall]
    | some btns =>
      have hall : holder.translationsChildren.all ChildView.isButton = true := by
        have h := castChildren_isSome_eq_all holder.translationsChildren
        rw [hc] at h
        exact h.symm
      simp [hp, hall]

/-- C9: after a click on the translation button at index `t` of a bound
holder, whatever the previous styles were, the button styles are plain
everywhere except at `t`: an index styles to bold exactly when it is the
clicked index, so exactly one button — the clicked one — is bold. -/
theorem click_leaves_exactly_one_bold (item : VerseResult) (t : Nat)
    (holder : VerseResultViewHolder) (btns : List ButtonView)
    (hbtns : castChildren holder.translationsChildren = some btns)
    (ht : t < btns.length) :
    ∃ after, translationClick item t holder = some after ∧
      ∃ S, buttonStyles after = some S ∧ S.length = btns.length ∧
        (∀ i, S[i]? = some ibButtonBold ↔ i = t) ∧
        (∀ i, i ≠ t → i < btns.length → S[i]? = some ibButton) := by
  unfold translationClick
  rw [hbtns]
  refine ⟨_, rfl,
    ((modifyAt (fun b => setButtonStyle b ibButtonBold) t
      (btns.map fun b => setButtonStyle b ibButton)).map ButtonView.style),
    ?_, ?_, ?_, ?_⟩
  · unfold buttonStyles
    rw [castChildren_map_button]
    rfl
  · simp [modifyAt_length]
  · intro i
    rw [click_styles_getElem]
    constructor
    · intro h
      by_contra hne
      cases hb : btns[i]? with
      | none => rw [hb] at h; cases h
      | some b =>
        rw [hb] at h
        simp [hne] at h
        exact ibButton_ne_ibButtonBold h
    · intro h
      subst h
      rw [List.getElem?_eq_getElem ht]
      simp
  · intro i hne hlt
    rw [click_styles_getElem, List.getElem?_eq_getElem hlt]
    simp [hne]

/-- C10: every holder created by `onCreateViewHolder` has exactly
`TOTAL_VALUE` children in its translations holder, and for each
`t < TOTAL_VALUE` the `t`-th child is a button labelled
`getTranslationLabel t`, styled plain and tagged with `t`. -/
theorem create_holder_has_translation_buttons (TOTAL_VALUE : Nat)
    (getTranslationLabel : Nat → String) (context : Context) :
    (onCreateViewHolder TOTAL_VALUE getTranslationLabel context).translationsChildren.length
        = TOTAL_VALUE
      ∧ ∀ t, (onCreateViewHolder TOTAL_VALUE getTranslationLabel context).translationsChildren[t]?
          = if t < TOTAL_VALUE then
              some (ChildView.button
                { text := getTranslationLabel t
                , style := ibButton
                , translationTag := some t })
            else none := by
  constructor
  · simp [onCreateViewHolder]
  · intro t
    by_cases h : t < TOTAL_VALUE
    · simp [onCreateViewHolder, List.getElem?_map, List.getElem?_range h, h]
    · rw [if_neg h]
      exact List.getElem?_eq_none
        (by simpa [onCreateViewHolder] using Nat.le_of_not_lt h)

/-! ## Witnesses -/

/-- Witness for C1: the hypotheses of
`displayed_text_is_regex_highlight_fold` hold at the sample fixtures and
its conclusion follows there. -/
theorem displayed_text_is_regex_highlight_fold_witness :
    castChildren sampleHolder.translationsChildren = some sampleButtons ∧
    ∃ after, translationClick sampleItem 1 sampleHolder = some after ∧
      after.verseText = HtmlCompat.fromHtml
        (sampleItem.highlightsList.foldl
          (fun text word =>
            replaceCI word
              (fun matched =>
                "<b><font color='" ++ toString sampleHolder.context.ibTextHighlight
                  ++ "' >" ++ matched ++ "</font></b>")
              text)
          (sampleItem.getText 1))
        FROM_HTML_MODE_LEGACY :=
  ⟨rfl, displayed_text_is_regex_highlight_fold sampleItem 1 sampleHolder sampleButtons rfl⟩

/-- Witness for C2: the hypotheses of
`click_rerenders_highlighted_translation` hold at the sample fixtures and
its conclusion follows there. -/
theorem click_rerenders_highlighted_translation_witness :
    castChildren sampleHolder.translationsChildren = some sampleButtons ∧
    1 < sampleButtons.length ∧
    ∃ after, translationClick sampleItem 1 sampleHolder = some after ∧
      after.verseText = getHighlightedText sampleHolder.context sampleItem 1 :=
  ⟨rfl, by decide,
    click_rerenders_highlighted_translation sampleItem 1 sampleHolder sampleButtons
      rfl (by decide)⟩

/-- Witness for C6: the hypotheses of `bind_renders_top_translation` hold
at the sample fixtures and its conclusion follows there. -/
theorem bind_renders_top_translation_witness :
    sampleAdapter.data[0]? = some sampleItem ∧
    castChildren sampleHolder.translationsChildren = some sampleButtons ∧
    ∃ bound, onBindViewHolder sampleBookName sampleAdapter sampleHolder 0 = some bound ∧
      bound.verseText
        = getHighlightedText sampleHolder.context sampleItem sampleItem.topTranslationValue ∧
      ∃ S, buttonStyles bound = some S ∧ S.length = sampleButtons.length ∧
        ∀ t, S[t]? = (sampleButtons[t]?).map
          fun _ => if t = sampleItem.topTranslationValue then ibButtonBold else ibButton :=
  ⟨rfl, rfl,
    bind_renders_top_translation sampleBookName sampleAdapter sampleHolder 0
      sampleItem sampleButtons rfl rfl⟩

/-- Witness for C9: the hypotheses of `click_leaves_exactly_one_bold` hold
at the sample fixtures and its conclusion follows there. -/
theorem click_leaves_exactly_one_bold_witness :
    castChildren sampleHolder.translationsChildren = some sampleButtons ∧
    1 < sampleButtons.length ∧
    ∃ after, translationClick sampleItem 1 sampleHolder = some after ∧
      ∃ S, buttonStyles after = some S ∧ S.length = sampleButtons.length ∧
        (∀ i, S[i]? = some ibButtonBold ↔ i = 1) ∧
        (∀ i, i ≠ 1 → i < sampleButtons.length → S[i]? = some ibButton) :=
  ⟨rfl, by decide,
    click_leaves_exactly_one_bold sampleItem 1 sampleHolder sampleButtons rfl (by decide)⟩

/-! ## Concrete sanity checks of the highlight pipeline -/

example :
    getHighlightedText sampleContext sampleItem 0
      = Spanned.fromHtml
          ("For <b><font color='-16711681' >God</font></b> so loved the "
            ++ "<b><font color='-16711681' >world</font></b>") 0 := by
  rfl

example :
    getHighlightedText sampleContext sampleItem 1
      = Spanned.fromHtml
          ("<b><font color='-16711681' >God</font></b> loved the "
            ++ "<b><font color='-16711681' >world</font></b> so much") 0 := by
  rfl

example : replaceCI "o" (fun m => "[" ++ m ++ "]") "FOO foo" = "F[O][O] f[o][o]" := by
  rfl

end InstantBible
